import Mathlib

/-!
Verification of `src/commands/diffWithRevisionFrom.ts`
(`DiffWithRevisionFromCommand.execute`).

The command is a straight-line asynchronous pipeline over a handful of
external collaborators (git queries, quick-pick UIs, the diff presenter).
We embed it as a pure function from an `Env` — one field per external query
result consumed during the invocation — to an `ExecResult` holding the
terminal outcome (silent return, warning message, or dispatched diff
request), the ordered trace of external calls issued, and the final object
store (used to model mutation of the caller-supplied `args` object).

Helpers that live outside the embedded file (`pad`, `basename`,
`shortenRevision`, `quickPickTitleMaxChars`, `GitUri.getFormattedFileName`,
`isBranchReference`) are modelled from the specification and marked as such.
-/

namespace DiffWithRevisionFrom

/-- Modelled from the spec: `GlyphChars.Dot`, the bullet glyph (U+2022) used
in picker titles; the surrounding padding uses the no-break space (U+00A0). -/
def glyphDot : String := String.mk [Char.ofNat 0x2022]

/-- Modelled from the spec: `pad` from the system string utilities (not under
`src/`) — surrounds `s` with `before`/`after` no-break spaces. -/
def pad (s : String) (before after : Nat) : String :=
  String.mk (List.replicate before (Char.ofNat 0xA0)) ++ s
    ++ String.mk (List.replicate after (Char.ofNat 0xA0))

/-- Modelled from the spec: `quickPickTitleMaxChars` from the constants
module (not under `src/`) — the picker's maximum allowed title length. -/
def quickPickTitleMaxChars : Nat := 80

/-- Modelled from the spec: truncation of a display name to width `n`,
preserving the ellipsis convention — when the name is too long it is
replaced by an ellipsis followed by the name's last `n - 1` characters. -/
def truncateLeft (s : String) (n : Nat) : String :=
  if s.length ≤ n then s else String.mk ('…' :: s.data.drop (s.length - (n - 1)))

/-- Modelled from the spec: `basename` from the system path utilities (not
under `src/`) — the last `/`-separated component of a path. -/
def basename (s : String) : String :=
  String.mk (s.data.foldl (fun acc c => if c = '/' then [] else acc ++ [c]) [])

/-- Lowercase hexadecimal digit test, used to recognise commit hashes. -/
def isHexChar (c : Char) : Bool :=
  c.isDigit || (0x61 ≤ c.toNat && c.toNat ≤ 0x66)

/-- Modelled from the spec: `shortenRevision` (not under `src/`) — a
fixed-length human-friendly abbreviation: the first seven characters of a
full 40-hex-digit commit hash, the literal name for symbolic references. -/
def shortenRevision (r : String) : String :=
  if r.length == 40 && r.data.all isHexChar then String.mk (r.data.take 7) else r

/-- One entry of a path-level diff status (or of a stash's file list):
a current-side path and, for renames/copies, the original path. -/
structure FileChange where
  path : String
  originalPath : Option String
deriving DecidableEq

/-- A stash entry as offered by the stash picker: its git reference and,
when known, its file-change list (`files` may be unavailable). -/
structure StashCommit where
  ref : String
  files : Option (List FileChange)
deriving DecidableEq

/-- A pick from the reference picker: reference name, reference type (the
source tests `isBranchReference`, i.e. `refType === 'branch'`), and the
remote-tracking flag. -/
structure ReferencePick where
  ref : String
  refType : String
  remote : Bool
deriving DecidableEq

/-- Modelled from the spec: `isBranchReference` from the reference
utilities (not under `src/`) — whether the pick is a branch reference. -/
def isBranchReference (p : ReferencePick) : Bool :=
  p.refType == "branch"

/-- Line 78: `sha = isBranchReference(pick) && pick.remote ?
\remotes/${ref}\ : ref`. -/
def refSha (p : ReferencePick) : String :=
  if isBranchReference p && p.remote then "remotes/" ++ p.ref else p.ref

/-- The resolved `GitUri` of the target file: optional repository root,
absolute filesystem path, and the formatted display file name. -/
structure GitUriM where
  repoPath : Option String
  fsPath : String
  formattedFileName : String
deriving DecidableEq

/-- Modelled from the spec: `GitUri.getFormattedFileName` (not under
`src/`) — the formatted file name, truncated when a width is given. -/
def GitUriM.getFormattedFileName (g : GitUriM) (truncateTo : Option Nat) : String :=
  match truncateTo with
  | some n => truncateLeft g.formattedFileName n
  | none => g.formattedFileName

/-- A file location appearing in the dispatched request: either the current
`GitUri` itself, or an absolute uri built from an original path inside a
repository root (`getAbsoluteUri(originalPath, repoPath)`). -/
inductive UriM where
  | current (g : GitUriM)
  | absolute (path repoPath : String)
deriving DecidableEq

/-- The caller-supplied `DiffWithRevisionFromCommandArgs` object:
`line?`, `showOptions?` (opaque, modelled as a string token), `stash?`. -/
structure ArgsObj where
  line : Option Nat
  showOptions : Option String
  stash : Option Bool
deriving DecidableEq

/-- Heap of `ArgsObj` objects, keyed by object identity; models which
JavaScript object a reference points at, so that mutation through one
reference is observable through another. -/
abbrev Store := List (Nat × ArgsObj)

/-- Look up the object a reference points at. -/
def lookupStore : Store → Nat → Option ArgsObj
  | [], _ => none
  | (j, a) :: t, i => if j = i then some a else lookupStore t i

/-- An identity not used by any object in the store. -/
def freshId (s : Store) : Nat :=
  s.foldr (fun p m => max (p.1 + 1) m) 0

/-- Overwrite the object with identity `i`. -/
def writeStore : Store → Nat → ArgsObj → Store
  | [], _, _ => []
  | (j, a) :: t, i, v =>
    if j = i then (j, v) :: writeStore t i v else (j, a) :: writeStore t i v

/-- Line 40: `args = { ...args }` — the field-wise copy of the object the
caller's reference points at; a null/dangling reference yields the empty
object (all fields absent). -/
def argsCopy (store : Store) (argsRef : Option Nat) : ArgsObj :=
  (argsRef.bind (lookupStore store)).getD ⟨none, none, none⟩

/-- Lines 41–43: default the `line` field to the editor's selection line
(or 0) when absent. -/
def normLine (a : ArgsObj) (editorLine : Option Nat) : ArgsObj :=
  if a.line = none then { a with line := some (editorLine.getD 0) } else a

/-- Lines 40–43 as heap effects: allocate the shallow copy as a fresh
object and apply the `line` default by writing that fresh object. Returns
the updated store and the new object's identity. -/
def allocArgs (store : Store) (argsRef : Option Nat) (editorLine : Option Nat) :
    Store × Nat :=
  let copy := argsCopy store argsRef
  let nid := freshId store
  let s1 : Store := (nid, copy) :: store
  let s2 := if copy.line = none
    then writeStore s1 nid { copy with line := some (editorLine.getD 0) }
    else s1
  (s2, nid)

/-- Line 49: `if (args?.stash)` — truthiness of the copied `stash` flag. -/
def isStashMode (a : ArgsObj) : Bool :=
  match a.stash with
  | some true => true
  | _ => false

/-- Line 58: the filter handed to the stash picker —
`c => c.files?.some(f => f.path === path || f.originalPath === path) ?? true`. -/
def stashFilter (path : String) (c : StashCommit) : Bool :=
  match c.files with
  | none => true
  | some fs => fs.any (fun f => f.path == path || f.originalPath == some path)

/-- Lines 50–53 and 66–69: the quick-pick title — the fixed mode prefix
followed by the file display name truncated to the picker's maximum title
length minus the prefix length. -/
def pickerTitle (t : String) (g : GitUriM) : String :=
  t ++ g.getFormattedFileName (some (quickPickTitleMaxChars - t.length))

/-- Line 50: the stash-mode title prefix. -/
def titleStash : String := "Open Changes with Stash" ++ pad glyphDot 2 2

/-- Line 66: the reference-mode title prefix. -/
def titleRef : String := "Open Changes with Branch or Tag" ++ pad glyphDot 2 2

/-- The environment of one invocation: the result each external
collaborator would return when called during this run. -/
structure Env where
  hasUri : Bool
  gitUri : GitUriM
  editorLine : Option Nat
  relativePath : String
  stashPick : Option StashCommit
  refPick : Option ReferencePick
  diffStatus : Option (List FileChange)
deriving DecidableEq

/-- One external call issued by the pipeline, in program order. -/
inductive Call where
  | getStash (repoPath : String)
  | stashPicker (title : String)
  | referencePicker (repoPath title : String)
  | diffStatus (repoPath ref1 ref2 : String) (filters : List String)
  | dispatchDiff
deriving DecidableEq

/-- One side of the dispatched `gitlens.diffWith` request. -/
structure DiffSide where
  sha : String
  uri : UriM
  title : Option String
deriving DecidableEq

/-- The payload handed to `executeCommand('gitlens.diffWith', …)`
(lines 98–111). -/
structure DiffWithArgs where
  repoPath : String
  lhs : DiffSide
  rhs : DiffSide
  line : Option Nat
  showOptions : Option String
deriving DecidableEq

/-- How the invocation ends: silent return, warning message, or a
dispatched diff request. -/
inductive Outcome where
  | noop
  | warn (msg : String)
  | dispatch (req : DiffWithArgs)
deriving DecidableEq

/-- Result of one invocation: terminal outcome, trace of external calls in
program order, and the final object store. -/
structure ExecResult where
  outcome : Outcome
  trace : List Call
  store : Store

/-- Lines 87–96: the original path of the file, when the rename/copy
status between HEAD and the picked reference lists the file's relative
path with a non-null original path on the first matching entry. -/
def renamedPath (env : Env) (path : String) : Option String :=
  match env.diffStatus with
  | none => none
  | some files =>
    match files.find? (fun s => s.path == path) with
    | none => none
    | some rename => rename.originalPath

/-- Lines 98–111: assembly of the dispatched request — left side bound to
`sha` at the original path when renamed (title from the original basename),
right side bound to the working tree at the current location. -/
def buildReq (env : Env) (rp ref sha : String) (args : ArgsObj) : DiffWithArgs :=
  { repoPath := rp
    lhs := { sha := sha
             uri := match renamedPath env env.relativePath with
               | some op => UriM.absolute op rp
               | none => UriM.current env.gitUri
             title := some (match renamedPath env env.relativePath with
               | some op => basename op ++ " (" ++ shortenRevision ref ++ ")"
               | none => basename env.gitUri.fsPath ++ " (" ++ shortenRevision ref ++ ")") }
    rhs := { sha := "", uri := UriM.current env.gitUri, title := none }
    line := args.line
    showOptions := args.showOptions }

/-- Lines 81–111: the tail of the pipeline once a reference is in hand —
issue the rename/copy status query between HEAD and `ref` (filters R and
C), then dispatch the assembled request. -/
def finishDiff (env : Env) (store : Store) (rp ref sha : String) (args : ArgsObj)
    (tr0 : List Call) : ExecResult :=
  ⟨Outcome.dispatch (buildReq env rp ref sha args),
   tr0 ++ [Call.diffStatus rp "HEAD" ref ["R", "C"], Call.dispatchDiff],
   store⟩

/-- `DiffWithRevisionFromCommand.execute` (lines 29–112), one invocation.
`store` is the object heap and `argsRef` the caller's `args` reference.
Control flow: missing uri → silent return; no repository root → warning;
then the mode-selected picker (stash when the copied `stash` flag is
truthy, reference otherwise); a null pick → silent return; otherwise the
rename check and the dispatch. The source's `if (ref == null) return` on
line 81 is unreachable here since a pick's `ref` is a non-null string. -/
def execute (env : Env) (store : Store) (argsRef : Option Nat) : ExecResult :=
  match env.hasUri with
  | false => ⟨Outcome.noop, [], store⟩
  | true =>
    match env.gitUri.repoPath with
    | none => ⟨Outcome.warn "Unable to open file comparison", [], store⟩
    | some repoPath =>
      let store2 := (allocArgs store argsRef env.editorLine).1
      let args := normLine (argsCopy store argsRef) env.editorLine
      match isStashMode (argsCopy store argsRef) with
      | true =>
        let tr0 := [Call.getStash repoPath,
                    Call.stashPicker (pickerTitle titleStash env.gitUri)]
        match env.stashPick with
        | none => ⟨Outcome.noop, tr0, store2⟩
        | some pick => finishDiff env store2 repoPath pick.ref pick.ref args tr0
      | false =>
        let tr0 := [Call.referencePicker repoPath (pickerTitle titleRef env.gitUri)]
        match env.refPick with
        | none => ⟨Outcome.noop, tr0, store2⟩
        | some pick => finishDiff env store2 repoPath pick.ref (refSha pick) args tr0

/-- The reference the mode-selected picker produced, if any: the stash
pick's ref in stash mode, the reference pick's ref otherwise. -/
def pickedRef (env : Env) (a : ArgsObj) : Option String :=
  match isStashMode a with
  | true => env.stashPick.map StashCommit.ref
  | false => env.refPick.map ReferencePick.ref

/-- The left-hand sha of the dispatched request, when one was dispatched. -/
def lhsShaOf (r : ExecResult) : Option String :=
  match r.outcome with
  | Outcome.dispatch q => some q.lhs.sha
  | _ => none

/-- The left-hand uri of the dispatched request, when one was dispatched. -/
def lhsUriOf (r : ExecResult) : Option UriM :=
  match r.outcome with
  | Outcome.dispatch q => some q.lhs.uri
  | _ => none

/-- Concrete fixture: the git uri of `a.ts` inside the repository `/repo`. -/
def gA : GitUriM := ⟨some "/repo", "/repo/a.ts", "a.ts"⟩

/-- Concrete fixture: reference mode, local branch `feature`, no rename. -/
def envA : Env :=
  ⟨true, gA, some 3, "a.ts", none, some ⟨"feature", "branch", false⟩, some []⟩

/-- The request `envA` dispatches. -/
def reqA : DiffWithArgs :=
  { repoPath := "/repo"
    lhs := { sha := "feature", uri := UriM.current gA, title := some "a.ts (feature)" }
    rhs := { sha := "", uri := UriM.current gA, title := none }
    line := some 3
    showOptions := none }

/-- Concrete fixture: reference mode, remote-tracking branch `origin/main`,
with `a.ts` renamed from `old/a.ts`. -/
def envB : Env :=
  ⟨true, gA, some 3, "a.ts", none, some ⟨"origin/main", "branch", true⟩,
   some [⟨"a.ts", some "old/a.ts"⟩]⟩

/-- The request `envB` dispatches. -/
def reqB : DiffWithArgs :=
  { repoPath := "/repo"
    lhs := { sha := "remotes/origin/main", uri := UriM.absolute "old/a.ts" "/repo",
             title := some "a.ts (origin/main)" }
    rhs := { sha := "", uri := UriM.current gA, title := none }
    line := some 3
    showOptions := none }

/-- Concrete fixture: reference mode but the picker returns no selection. -/
def envCancel : Env := ⟨true, gA, some 0, "a.ts", none, none, none⟩

/-- Concrete fixture: the file's location has no repository root. -/
def envNoRepo : Env := ⟨true, ⟨none, "/x/a.ts", "a.ts"⟩, none, "a.ts", none, none, none⟩

/-- Concrete fixture: a caller `args` object with the stash flag set,
living at identity 0 in the store. -/
def stStash : Store := [(0, ⟨none, none, some true⟩)]

/-- Concrete fixture: stash mode, the user picks stash `stash-0`. -/
def envStash : Env :=
  ⟨true, gA, some 2, "a.ts", some ⟨"stash-0", some [⟨"a.ts", none⟩]⟩, none, none⟩

/-- Concrete fixture: the diff status lists the target path twice — first
with no original path, then with one. The source's `find` takes the first
entry, so no rename is propagated. -/
def envDup : Env :=
  ⟨true, gA, some 0, "a.ts", none, some ⟨"feature", "branch", false⟩,
   some [⟨"a.ts", none⟩, ⟨"a.ts", some "old/a.ts"⟩]⟩

theorem lookupStore_cons_ne (s : Store) (j i : Nat) (a : ArgsObj) (h : j ≠ i) :
    lookupStore ((j, a) :: s) i = lookupStore s i := by
  simp [lookupStore, h]

theorem lookupStore_write_ne (s : Store) (j i : Nat) (v : ArgsObj) (h : j ≠ i) :
    lookupStore (writeStore s j v) i = lookupStore s i := by
  induction s with
  | nil => rfl
  | cons hd t ih =>
    obtain ⟨k, b⟩ := hd
    simp only [writeStore]
    by_cases hk : k = j
    · subst hk
      rw [if_pos rfl, lookupStore_cons_ne _ _ _ _ h, lookupStore_cons_ne _ _ _ _ h]
      exact ih
    · rw [if_neg hk]
      simp only [lookupStore, ih]

theorem lookupStore_lt_freshId (s : Store) (i : Nat) (a : ArgsObj)
    (h : lookupStore s i = some a) : i < freshId s := by
  induction s with
  | nil => simp [lookupStore] at h
  | cons hd t ih =>
    obtain ⟨k, b⟩ := hd
    have hf : freshId ((k, b) :: t) = max (k + 1) (freshId t) := rfl
    by_cases hk : k = i
    · omega
    · rw [lookupStore_cons_ne t k i b hk] at h
      have := ih h
      omega

theorem lookupStore_allocArgs_old (store : Store) (aRef : Option Nat)
    (el : Option Nat) (i : Nat) (a : ArgsObj) (h : lookupStore store i = some a) :
    lookupStore (allocArgs store aRef el).1 i = some a := by
  have hlt : i < freshId store := lookupStore_lt_freshId store i a h
  have hne : freshId store ≠ i := by omega
  simp only [allocArgs]
  by_cases hc : (argsCopy store aRef).line = none
  · rw [if_pos hc, lookupStore_write_ne _ _ _ _ hne, lookupStore_cons_ne _ _ _ _ hne]
    exact h
  · rw [if_neg hc, lookupStore_cons_ne _ _ _ _ hne]
    exact h

theorem allocArgs_lookup_self (store : Store) (aRef : Option Nat) (el : Option Nat) :
    lookupStore (allocArgs store aRef el).1 (allocArgs store aRef el).2 =
      some (normLine (argsCopy store aRef) el) := by
  simp only [allocArgs, normLine]
  by_cases hc : (argsCopy store aRef).line = none
  · rw [if_pos hc, if_pos hc]
    simp [writeStore, lookupStore]
  · rw [if_neg hc, if_neg hc]
    simp [lookupStore]

theorem execute_store_cases (env : Env) (store : Store) (aRef : Option Nat) :
    (execute env store aRef).store = store ∨
      (execute env store aRef).store = (allocArgs store aRef env.editorLine).1 := by
  unfold execute
  cases env.hasUri
  · exact Or.inl rfl
  · cases env.gitUri.repoPath
    · exact Or.inl rfl
    · cases isStashMode (argsCopy store aRef)
      · cases env.refPick
        · exact Or.inr rfl
        · exact Or.inr rfl
      · cases env.stashPick
        · exact Or.inr rfl
        · exact Or.inr rfl

theorem execute_dispatch_inv (env : Env) (store : Store) (aRef : Option Nat)
    (req : DiffWithArgs)
    (h : (execute env store aRef).outcome = Outcome.dispatch req) :
    env.hasUri = true ∧
    ∃ rp, env.gitUri.repoPath = some rp ∧
    ∃ r, pickedRef env (argsCopy store aRef) = some r ∧
    ∃ sh, req = buildReq env rp r sh (normLine (argsCopy store aRef) env.editorLine) ∧
      ((isStashMode (argsCopy store aRef) = true ∧ sh = r) ∨
       (isStashMode (argsCopy store aRef) = false ∧
         ∃ p, env.refPick = some p ∧ r = p.ref ∧ sh = refSha p)) := by
  cases hU : env.hasUri
  · simp [execute, hU] at h
  · refine ⟨rfl, ?_⟩
    cases hR : env.gitUri.repoPath with
    | none => simp [execute, hU, hR] at h
    | some rp =>
      refine ⟨rp, rfl, ?_⟩
      cases hM : isStashMode (argsCopy store aRef)
      · cases hP : env.refPick with
        | none => simp [execute, hU, hR, hM, hP] at h
        | some p =>
          simp only [execute, hU, hR, hM, hP, finishDiff] at h
          refine ⟨p.ref, ?_, refSha p, ?_, Or.inr ⟨rfl, p, rfl, rfl, rfl⟩⟩
          · simp [pickedRef, hM, hP]
          · exact (Outcome.dispatch.injEq _ _ ▸ h).symm
      · cases hP : env.stashPick with
        | none => simp [execute, hU, hR, hM, hP] at h
        | some p =>
          simp only [execute, hU, hR, hM, hP, finishDiff] at h
          refine ⟨p.ref, ?_, p.ref, ?_, Or.inl ⟨rfl, rfl⟩⟩
          · simp [pickedRef, hM, hP]
          · exact (Outcome.dispatch.injEq _ _ ▸ h).symm

/-- C4: in either mode, when the picker returns no selection the operation
ends silently — the outcome is the plain return (no warning message) and no
diff-presentation dispatch appears in the call trace. -/
theorem cancellation_silent (env : Env) (store : Store) (aRef : Option Nat)
    (rp : String) (hU : env.hasUri = true) (hR : env.gitUri.repoPath = some rp)
    (hP : pickedRef env (argsCopy store aRef) = none) :
    (execute env store aRef).outcome = Outcome.noop ∧
      Call.dispatchDiff ∉ (execute env store aRef).trace := by
  cases hM : isStashMode (argsCopy store aRef)
  · have hp : env.refPick = none := by
      simp [pickedRef, hM] at hP
      exact hP
    simp [execute, hU, hR, hM, hp]
  · have hp : env.stashPick = none := by
      simp [pickedRef, hM] at hP
      exact hP
    simp [execute, hU, hR, hM, hp]

/-- C4 witness: cancelling the reference picker on a concrete invocation
yields a silent return and a trace without a dispatch. -/
theorem cancellation_silent_witness :
    (execute envCancel [] none).outcome = Outcome.noop ∧
      Call.dispatchDiff ∉ (execute envCancel [] none).trace :=
  cancellation_silent envCancel [] none "/repo" (by decide) (by decide) (by decide)

/-- C5: the stash picker's filter accepts every entry whose file-change
list is unknown, and accepts an entry with a known list exactly when some
file's current or original path equals the target relative path. -/
theorem stash_filter_permissive (path : String) (c : StashCommit) :
    (c.files = none → stashFilter path c = true) ∧
    (∀ fs, c.files = some fs →
      (stashFilter path c = true ↔
        ∃ f ∈ fs, f.path = path ∨ f.originalPath = some path)) := by
  constructor
  · intro h
    simp [stashFilter, h]
  · intro fs h
    simp [stashFilter, h, List.any_eq_true, Bool.or_eq_true, beq_iff_eq]

/-- C5 witness: an entry with an unknown file list passes the filter, and a
concrete entry listing `a.ts` passes the filter for `a.ts`. -/
theorem stash_filter_permissive_witness :
    stashFilter "a.ts" ⟨"stash-1", none⟩ = true ∧
    (stashFilter "a.ts" ⟨"stash-0", some [⟨"a.ts", none⟩]⟩ = true ↔
      ∃ f ∈ [(⟨"a.ts", none⟩ : FileChange)], f.path = "a.ts" ∨ f.originalPath = some "a.ts") :=
  ⟨(stash_filter_permissive "a.ts" ⟨"stash-1", none⟩).1 rfl,
   (stash_filter_permissive "a.ts" ⟨"stash-0", some [⟨"a.ts", none⟩]⟩).2 _ rfl⟩

/-- C6: when the resolved git uri has no repository root, the operation
shows the "Unable to open file comparison" warning and aborts at once — no
external call is made (so nothing is dispatched and nothing is retried) and
the store is untouched. -/
theorem no_repository_warning (env : Env) (store : Store) (aRef : Option Nat)
    (hU : env.hasUri = true) (hR : env.gitUri.repoPath = none) :
    (execute env store aRef).outcome = Outcome.warn "Unable to open file comparison" ∧
      (execute env store aRef).trace = [] ∧ (execute env store aRef).store = store := by
  simp [execute, hU, hR]

/-- C6 witness: a concrete invocation outside any repository warns and
aborts. -/
theorem no_repository_warning_witness :
    (execute envNoRepo [] none).outcome = Outcome.warn "Unable to open file comparison" ∧
      (execute envNoRepo [] none).trace = [] ∧ (execute envNoRepo [] none).store = [] :=
  no_repository_warning envNoRepo [] none (by decide) (by decide)

/-- C7: every dispatched diff request binds its right-hand side to the
working tree — the right sha is the empty string and the right uri is the
current file location, unmodified, with no title, in every mode and under
every rename outcome. -/
theorem rhs_is_working_tree (env : Env) (store : Store) (aRef : Option Nat)
    (req : DiffWithArgs)
    (h : (execute env store aRef).outcome = Outcome.dispatch req) :
    req.rhs.sha = "" ∧ req.rhs.uri = UriM.current env.gitUri ∧ req.rhs.title = none := by
  obtain ⟨-, rp, -, r, -, sh, hreq, -⟩ := execute_dispatch_inv env store aRef req h
  subst hreq
  exact ⟨rfl, rfl, rfl⟩

/-- C7 witness: the concrete `envA` run dispatches with an empty right sha
and the current location on the right. -/
theorem rhs_is_working_tree_witness :
    reqA.rhs.sha = "" ∧ reqA.rhs.uri = UriM.current envA.gitUri ∧ reqA.rhs.title = none :=
  rhs_is_working_tree envA [] none reqA (by decide)

/-- C10: the caller-supplied arguments object is never mutated — after the
invocation the object the caller's reference points at still holds exactly
the fields (line, showOptions, stash) it held before, even when the line
default is applied (the default is written to a fresh shallow copy). -/
theorem caller_args_unmutated (env : Env) (store : Store) (i : Nat) (a : ArgsObj)
    (ha : lookupStore store i = some a) :
    lookupStore (execute env store (some i)).store i = some a := by
  rcases execute_store_cases env store (some i) with hcase | hcase
  · rw [hcase]
    exact ha
  · rw [hcase]
    exact lookupStore_allocArgs_old store (some i) env.editorLine i a ha

/-- C10 witness: a concrete stash-mode run whose `args` object has no
`line` field (so the default is applied) leaves the caller's object with
exactly its original fields. -/
theorem caller_args_unmutated_witness :
    lookupStore (execute envStash stStash (some 0)).store 0 =
      some ⟨none, none, some true⟩ :=
  caller_args_unmutated envStash stStash 0 ⟨none, none, some true⟩ (by decide)

/-- C1 counterexample: the claim reads the rename-status result
existentially, but the source takes the *first* entry matching the current
path. With a status listing `a.ts` twice — first without an original path,
then with one — an entry with a non-null original path exists, yet the
dispatched left-hand uri is the current location, not the original path. -/
theorem rename_propagation_counterexample :
    (envDup.diffStatus.getD []).any
        (fun f => f.path == envDup.relativePath && f.originalPath.isSome) = true ∧
    lhsUriOf (execute envDup [] none) = some (UriM.current gA) ∧
    lhsUriOf (execute envDup [] none) ≠ some (UriM.absolute "old/a.ts" "/repo") := by
  decide

/-- C1 (amended): for every invocation that reaches dispatch — if the
rename-status query returned a list whose *first* entry with current-side
path equal to the file's relative path carries a non-null original path,
the left-hand uri points at that original path within the request's
repository root and the left-hand title is the original path's basename
followed by the shortened picked revision in parentheses; otherwise the
left-hand uri is the current file location and the title basename comes
from the current path. -/
theorem rename_propagation (env : Env) (store : Store) (aRef : Option Nat)
    (req : DiffWithArgs)
    (h : (execute env store aRef).outcome = Outcome.dispatch req) :
    match renamedPath env env.relativePath with
    | some op =>
        req.lhs.uri = UriM.absolute op req.repoPath ∧
        ∃ r, pickedRef env (argsCopy store aRef) = some r ∧
          req.lhs.title = some (basename op ++ " (" ++ shortenRevision r ++ ")")
    | none =>
        req.lhs.uri = UriM.current env.gitUri ∧
        ∃ r, pickedRef env (argsCopy store aRef) = some r ∧
          req.lhs.title = some (basename env.gitUri.fsPath ++ " (" ++ shortenRevision r ++ ")") := by
  obtain ⟨-, rp, hrp, r, hpick, sh, hreq, -⟩ := execute_dispatch_inv env store aRef req h
  subst hreq
  cases hrn : renamedPath env env.relativePath with
  | some op =>
    refine ⟨by simp [buildReq, hrn], r, hpick, by simp [buildReq, hrn]⟩
  | none =>
    refine ⟨by simp [buildReq, hrn], r, hpick, by simp [buildReq, hrn]⟩

/-- C1 witness: the concrete remote-rename run `envB` dispatches with the
left side at `old/a.ts` and the title derived from the original
basename. -/
theorem rename_propagation_witness :
    reqB.lhs.uri = UriM.absolute "old/a.ts" reqB.repoPath ∧
    ∃ r, pickedRef envB (argsCopy [] none) = some r ∧
      reqB.lhs.title = some (basename "old/a.ts" ++ " (" ++ shortenRevision r ++ ")") :=
  rename_propagation envB [] none reqB (by decide)

/-- C2: for every dispatched invocation — a stash pick yields a left-hand
sha equal to the pick's reference with the title shortened from that same
reference; a reference pick yields `"remotes/" ++ ref` as the left-hand sha
exactly when the pick is a branch reference flagged remote, and the pick's
reference unchanged otherwise, while the title always shortens the
unprefixed reference. -/
theorem remote_branch_resolution (env : Env) (store : Store) (aRef : Option Nat)
    (req : DiffWithArgs)
    (h : (execute env store aRef).outcome = Outcome.dispatch req) :
    (isStashMode (argsCopy store aRef) = true →
      ∃ p, env.stashPick = some p ∧ req.lhs.sha = p.ref ∧
        ∃ b, req.lhs.title = some (b ++ " (" ++ shortenRevision p.ref ++ ")")) ∧
    (isStashMode (argsCopy store aRef) = false →
      ∃ p, env.refPick = some p ∧
        ((isBranchReference p && p.remote) = true → req.lhs.sha = "remotes/" ++ p.ref) ∧
        ((isBranchReference p && p.remote) = false → req.lhs.sha = p.ref) ∧
        ∃ b, req.lhs.title = some (b ++ " (" ++ shortenRevision p.ref ++ ")")) := by
  obtain ⟨-, rp, hrp, r, hpick, sh, hreq, hcase⟩ := execute_dispatch_inv env store aRef req h
  subst hreq
  rcases hcase with ⟨hM, hsh⟩ | ⟨hM, p, hp, hr, hsh⟩
  · constructor
    · intro _
      simp only [pickedRef, hM] at hpick
      obtain ⟨p, hp, hpr⟩ := Option.map_eq_some'.mp hpick
      refine ⟨p, hp, by simp [buildReq, hsh, hpr], ?_⟩
      cases hrn : renamedPath env env.relativePath with
      | some op => exact ⟨basename op, by simp [buildReq, hrn, hpr]⟩
      | none => exact ⟨basename env.gitUri.fsPath, by simp [buildReq, hrn, hpr]⟩
    · intro hc
      rw [hM] at hc
      cases hc
  · constructor
    · intro hc
      rw [hM] at hc
      cases hc
    · intro _
      subst hr
      refine ⟨p, hp, ?_, ?_, ?_⟩
      · intro hrem
        simp [buildReq, hsh, refSha, hrem]
      · intro hrem
        simp [buildReq, hsh, refSha, hrem]
      · cases hrn : renamedPath env env.relativePath with
        | some op => exact ⟨basename op, by simp [buildReq, hrn]⟩
        | none => exact ⟨basename env.gitUri.fsPath, by simp [buildReq, hrn]⟩

/-- C2 witness: the concrete remote-branch run `envB` dispatches with sha
`remotes/origin/main` while the title shortens `origin/main`. -/
theorem remote_branch_resolution_witness :
    (isStashMode (argsCopy [] none) = true →
      ∃ p, envB.stashPick = some p ∧ reqB.lhs.sha = p.ref ∧
        ∃ b, reqB.lhs.title = some (b ++ " (" ++ shortenRevision p.ref ++ ")")) ∧
    (isStashMode (argsCopy [] none) = false →
      ∃ p, envB.refPick = some p ∧
        ((isBranchReference p && p.remote) = true → reqB.lhs.sha = "remotes/" ++ p.ref) ∧
        ((isBranchReference p && p.remote) = false → reqB.lhs.sha = p.ref) ∧
        ∃ b, reqB.lhs.title = some (b ++ " (" ++ shortenRevision p.ref ++ ")")) :=
  remote_branch_resolution envB [] none reqB (by decide)

/-- C3 counterexample: for a remote-tracking branch pick the dispatched
left-hand sha is `remotes/origin/main`, yet the diff-status query in the
trace names the unprefixed `origin/main`; no query with the resolved
(prefixed) revision is ever issued. -/
theorem diff_status_query_counterexample :
    lhsShaOf (execute envB [] none) = some "remotes/origin/main" ∧
    Call.diffStatus "/repo" "HEAD" "origin/main" ["R", "C"] ∈ (execute envB [] none).trace ∧
    Call.diffStatus "/repo" "HEAD" "remotes/origin/main" ["R", "C"] ∉ (execute envB [] none).trace := by
  decide

/-- C3 (amended): every diff-status query issued by the pipeline runs in
the file's repository root between the HEAD marker and the *picked
reference* (the display revision, unprefixed even for remote-tracking
branches), restricted to rename and copy change types. -/
theorem diff_status_query_shape (env : Env) (store : Store) (aRef : Option Nat)
    (rp b r2 : String) (flt : List String)
    (h : Call.diffStatus rp b r2 flt ∈ (execute env store aRef).trace) :
    b = "HEAD" ∧ flt = ["R", "C"] ∧ env.gitUri.repoPath = some rp ∧
      pickedRef env (argsCopy store aRef) = some r2 := by
  cases hU : env.hasUri
  · simp [execute, hU] at h
  · cases hR : env.gitUri.repoPath with
    | none => simp [execute, hU, hR] at h
    | some rp0 =>
      cases hM : isStashMode (argsCopy store aRef)
      · cases hP : env.refPick with
        | none => simp [execute, hU, hR, hM, hP] at h
        | some p =>
          simp [execute, hU, hR, hM, hP, finishDiff] at h
          obtain ⟨h1, h2, h3, h4⟩ := h
          subst h1 h2 h3 h4
          exact ⟨rfl, rfl, rfl, by simp [pickedRef, hM, hP]⟩
      · cases hP : env.stashPick with
        | none => simp [execute, hU, hR, hM, hP] at h
        | some p =>
          simp [execute, hU, hR, hM, hP, finishDiff] at h
          obtain ⟨h1, h2, h3, h4⟩ := h
          subst h1 h2 h3 h4
          exact ⟨rfl, rfl, rfl, by simp [pickedRef, hM, hP]⟩

/-- C3 witness: the concrete query of the `envA` run is between HEAD and
the picked `feature` reference with the rename/copy filter. -/
theorem diff_status_query_shape_witness :
    "HEAD" = "HEAD" ∧ (["R", "C"] : List String) = ["R", "C"] ∧
      envA.gitUri.repoPath = some "/repo" ∧
      pickedRef envA (argsCopy [] none) = some "feature" :=
  diff_status_query_shape envA [] none "/repo" "HEAD" "feature" ["R", "C"] (by decide)

/-- C9: whenever the picker produced a reference (in either mode), the
rename-status check is issued, and it immediately precedes the dispatch in
the call trace — no dispatching path skips it. -/
theorem rename_check_before_dispatch (env : Env) (store : Store) (aRef : Option Nat)
    (rp r : String) (hU : env.hasUri = true) (hR : env.gitUri.repoPath = some rp)
    (hP : pickedRef env (argsCopy store aRef) = some r) :
    ∃ pre, (execute env store aRef).trace
        = pre ++ [Call.diffStatus rp "HEAD" r ["R", "C"], Call.dispatchDiff] := by
  cases hM : isStashMode (argsCopy store aRef)
  · simp only [pickedRef, hM] at hP
    obtain ⟨p, hp, hpr⟩ := Option.map_eq_some'.mp hP
    refine ⟨[Call.referencePicker rp (pickerTitle titleRef env.gitUri)], ?_⟩
    simp [execute, hU, hR, hM, hp, finishDiff, hpr]
  · simp only [pickedRef, hM] at hP
    obtain ⟨p, hp, hpr⟩ := Option.map_eq_some'.mp hP
    refine ⟨[Call.getStash rp, Call.stashPicker (pickerTitle titleStash env.gitUri)], ?_⟩
    simp [execute, hU, hR, hM, hp, finishDiff, hpr]

/-- C9 witness: the concrete stash-mode run issues the rename check right
before its dispatch. -/
theorem rename_check_before_dispatch_witness :
    ∃ pre, (execute envStash stStash (some 0)).trace
        = pre ++ [Call.diffStatus "/repo" "HEAD" "stash-0" ["R", "C"], Call.dispatchDiff] :=
  rename_check_before_dispatch envStash stStash (some 0) "/repo" "stash-0"
    (by decide) (by decide) (by decide)

/-- Length bound for the width-`n` left truncation, for positive `n`. -/
theorem truncateLeft_length (s : String) (n : Nat) (h : 1 ≤ n) :
    (truncateLeft s n).length ≤ n := by
  unfold truncateLeft
  by_cases hc : s.length ≤ n
  · rw [if_pos hc]
    exact hc
  · rw [if_neg hc]
    have hmk : (String.mk ('…' :: s.data.drop (s.length - (n - 1)))).length
        = ('…' :: s.data.drop (s.length - (n - 1))).length := rfl
    have hlen : s.length = s.data.length := rfl
    rw [hmk]
    simp only [List.length_cons, List.length_drop]
    rw [hlen] at hc
    omega

/-- C8: in both modes the picker title is the fixed mode prefix followed by
the file name truncated to the picker's maximum title length minus the
prefix length, so the whole title never exceeds the picker's maximum title
length. -/
theorem picker_title_bound (g : GitUriM) :
    (pickerTitle titleStash g).length ≤ quickPickTitleMaxChars ∧
    (pickerTitle titleRef g).length ≤ quickPickTitleMaxChars := by
  have hs : titleStash.length = 28 := by decide
  have hr : titleRef.length = 36 := by decide
  have happ : ∀ a b : String, (a ++ b).length = a.length + b.length := by
    intro a b
    exact String.length_append a b
  constructor
  · rw [pickerTitle, happ, hs]
    have hb : (GitUriM.getFormattedFileName g (some (quickPickTitleMaxChars - 28))).length ≤ 52 := by
      have h52 : quickPickTitleMaxChars - 28 = 52 := by decide
      rw [h52]
      exact truncateLeft_length g.formattedFileName 52 (by omega)
    have h80 : quickPickTitleMaxChars = 80 := rfl
    omega
  · rw [pickerTitle, happ, hr]
    have hb : (GitUriM.getFormattedFileName g (some (quickPickTitleMaxChars - 36))).length ≤ 44 := by
      have h44 : quickPickTitleMaxChars - 36 = 44 := by decide
      rw [h44]
      exact truncateLeft_length g.formattedFileName 44 (by omega)
    have h80 : quickPickTitleMaxChars = 80 := rfl
    omega

end DiffWithRevisionFrom
